import Mathlib

/-!
Shallow embedding of the gmail-tripit-web review core:
the classifier (`src/backend/src/classifier.ts`, mirrored in `src/unnamed/part_006`),
the persistence layer (`src/backend/src/database.ts`) and the route handlers
(`src/backend/src/routes.ts`).

Strings are modelled as Lean `String`/`List Char`; JavaScript `toLowerCase` is
modelled by `Char.toLower` (ASCII folding, which coincides with JS on the ASCII
keyword lists the code matches against).  SQLite `TEXT` comparison is modelled
by Lean's `String` order (both compare code units left to right).  SQLite
timestamps are modelled by a strictly monotone logical clock.
-/

namespace GmailTripit

/-! ## Classifier (`classifier.ts`) -/

/-- `EmailData` from `types.ts`. -/
structure EmailData where
  html : String
  from_email : String
  subject : String
  plain_text : Option String
  message_id : String
  date : String
deriving Repr, DecidableEq

/-- `ConfidenceResult` from `types.ts`. -/
structure ConfidenceResult where
  score : Nat
  reasons : List String
deriving Repr, DecidableEq

def KNOWN_AIRLINE_SENDERS : List String :=
  ["united.com", "delta.com", "aa.com", "southwest.com", "jetblue.com",
   "alaskaair.com", "spirit.com", "frontier.com", "allegiantair.com"]

def KNOWN_OTA_SENDERS : List String :=
  ["expedia.com", "kayak.com", "priceline.com", "booking.com", "orbitz.com",
   "travelocity.com", "hotwire.com", "cheapoair.com"]

def CONFIRMATION_KEYWORDS : List String :=
  ["confirmation", "confirmed", "itinerary", "booking", "receipt"]

def FLIGHT_KEYWORDS : List String :=
  ["flight", "airline", "boarding", "departure", "arrival"]

def CONFIDENCE_THRESHOLD : Nat := 30

/-- JavaScript `String.prototype.includes`: `needle` occurs as a contiguous
substring of `hay` (case-sensitive). -/
def strIncludes (hay needle : String) : Bool :=
  (List.range (hay.toList.length + 1)).any
    (fun i => List.isPrefixOf needle.toList (hay.toList.drop i))

/-- JavaScript `String.prototype.toLowerCase` on the ASCII fragment
(same as `String.map Char.toLower`, stated on the character list so that it
reduces in the kernel). -/
def toLowerStr (s : String) : String := ⟨s.toList.map Char.toLower⟩

/-- `hasFlightReservationSchema` (case-SENSITIVE `includes` in the source). -/
def hasFlightReservationSchema (html : String) : Bool :=
  strIncludes html "FlightReservation" || strIncludes html "schema.org/FlightReservation"

/-- `isKnownSender`: lowercases the address, then substring-matches the domain lists. -/
def isKnownSender (email : String) : Bool :=
  let lowerEmail := toLowerStr email
  KNOWN_AIRLINE_SENDERS.any (fun domain => strIncludes lowerEmail domain) ||
    KNOWN_OTA_SENDERS.any (fun domain => strIncludes lowerEmail domain)

/-- `hasConfirmationKeywords`. -/
def hasConfirmationKeywords (subject : String) : Bool :=
  let lowerSubject := toLowerStr subject
  CONFIRMATION_KEYWORDS.any (fun kw => strIncludes lowerSubject kw)

/-- `hasFlightKeywords`. -/
def hasFlightKeywords (subject : String) : Bool :=
  let lowerSubject := toLowerStr subject
  FLIGHT_KEYWORDS.any (fun kw => strIncludes lowerSubject kw)

/-- JavaScript word characters (regex `\w` is `[A-Za-z0-9_]`). -/
def isWordChar (c : Char) : Bool := c.isAlpha || c.isDigit || c = '_'

/-- Uppercase ASCII letter or digit (regex class `[A-Z0-9]`). -/
def isUpperOrDigit (c : Char) : Bool := c.isUpper || c.isDigit

/-- Word boundary (`\b`) on the left of position `i`, for a match whose first
character is a word character: start of string, or preceding char not a word char. -/
def boundaryBefore (cs : List Char) (i : Nat) : Bool :=
  decide (i = 0) || !isWordChar (cs.getD (i - 1) ' ')

/-- Word boundary (`\b`) on the right of position `j` (exclusive end of match):
end of string, or following char not a word char. -/
def boundaryAfter (cs : List Char) (j : Nat) : Bool :=
  decide (cs.length ≤ j) || !isWordChar (cs.getD j ' ')

/-- The regex `/\b[A-Z0-9]{6}\b/` matches at position `i`. -/
def confCodeAt (cs : List Char) (i : Nat) : Bool :=
  let seg := (cs.drop i).take 6
  decide (seg.length = 6) && seg.all isUpperOrDigit &&
    boundaryBefore cs i && boundaryAfter cs (i + 6)

/-- The regex `/\b[A-Z0-9]{6}\b/.test text`. -/
def hasConfCode (cs : List Char) : Bool :=
  (List.range (cs.length + 1)).any (confCodeAt cs)

/-- The regex `/\b[A-Z]{2}\d{1,4}\b/` matches at position `i` with `j` digits. -/
def flightNumAt (cs : List Char) (i j : Nat) : Bool :=
  let letters := (cs.drop i).take 2
  let digits := (cs.drop (i + 2)).take j
  decide (letters.length = 2) && letters.all Char.isUpper &&
    decide (digits.length = j) && digits.all Char.isDigit &&
    boundaryBefore cs i && boundaryAfter cs (i + 2 + j)

/-- The regex `/\b[A-Z]{2}\d{1,4}\b/.test text` (the digit count `j` ranges over 1..4,
as regex backtracking tries every repetition count). -/
def hasFlightNum (cs : List Char) : Bool :=
  (List.range (cs.length + 1)).any
    (fun i => [1, 2, 3, 4].any (fun j => flightNumAt cs i j))

/-- The regex `/\b[A-Z]{3}\b/` matches at position `i`. -/
def airportCodeAt (cs : List Char) (i : Nat) : Bool :=
  let seg := (cs.drop i).take 3
  decide (seg.length = 3) && seg.all Char.isUpper &&
    boundaryBefore cs i && boundaryAfter cs (i + 3)

/-- The regex `/\b[A-Z]{3}\b/.test text`. -/
def hasAirportCode (cs : List Char) : Bool :=
  (List.range (cs.length + 1)).any (airportCodeAt cs)

/-- `detectFlightMarkers`. -/
def detectFlightMarkers (text : String) : List String :=
  let cs := text.toList
  (if hasConfCode cs then ["confirmation code"] else []) ++
    (if hasFlightNum cs then ["flight number"] else []) ++
      (if hasAirportCode cs then ["airport code"] else [])

/-- `calculateConfidenceScore`: sequential rule accumulation, faithful to the
source order (schema +50, sender +20, confirmation keyword +15, flight keyword
+10, two or more content markers +10). -/
def calculateConfidenceScore (emailData : EmailData) : ConfidenceResult :=
  let r0 : ConfidenceResult := ⟨0, []⟩
  let r1 := if hasFlightReservationSchema emailData.html then
    ⟨r0.score + 50, r0.reasons ++ ["Has FlightReservation schema markup"]⟩ else r0
  let r2 := if isKnownSender emailData.from_email then
    ⟨r1.score + 20, r1.reasons ++ ["Known airline/OTA sender"]⟩ else r1
  let r3 := if hasConfirmationKeywords emailData.subject then
    ⟨r2.score + 15, r2.reasons ++ ["Confirmation keyword in subject"]⟩ else r2
  let r4 := if hasFlightKeywords emailData.subject then
    ⟨r3.score + 10, r3.reasons ++ ["Flight keyword in subject"]⟩ else r3
  let text := emailData.plain_text.getD ""
  let markersFound := detectFlightMarkers text
  if markersFound.length ≥ 2 then
    ⟨r4.score + 10, r4.reasons ++ ["Flight markers: " ++ String.intercalate ", " markersFound]⟩
  else r4

/-- Return type of `isCandidateForReview`. -/
structure CandidateVerdict where
  isCandidate : Bool
  score : Nat
  reasons : List String
deriving Repr, DecidableEq

/-- `isCandidateForReview`. -/
def isCandidateForReview (emailData : EmailData) : CandidateVerdict :=
  let r := calculateConfidenceScore emailData
  ⟨decide (CONFIDENCE_THRESHOLD ≤ r.score), r.score, r.reasons⟩

/-! ## Persistence layer (`database.ts`) -/

/-- A row of `email_candidates`.  `reviewed` is a `BOOLEAN` column that the
code only ever writes as 0 or 1 (`DEFAULT 0`, `UPDATE ... SET reviewed = 1/0`),
so it is modelled as `Bool`.  `fetched_at` is the insertion-time value of the
logical clock. -/
structure Candidate where
  id : Nat
  message_id : String
  gmail_uid : String
  subject : String
  from_email : String
  msg_date : String
  preview_text : String
  html_content : String
  plain_text : String
  confidence_score : Int
  detection_reasons : String
  fetched_at : Nat
  reviewed : Bool
deriving Repr, DecidableEq

/-- A row of `review_decisions` (`ReviewDecisionRecord` in `types.ts`). -/
structure Decision where
  id : Nat
  email_candidate_id : Nat
  message_id : String
  is_flight_confirmation : Bool
  reviewed_at : Nat
  notes : Option String
deriving Repr, DecidableEq

/-- A row of `confirmed_flights` (the columns the core writes). -/
structure ConfirmedFlight where
  id : Nat
  message_id : String
  gmail_uid : String
  subject : String
  forwarded_to_tripit : Bool
  created_at : Nat
deriving Repr, DecidableEq

/-- The whole SQLite database, plus the AUTOINCREMENT counters and a logical
clock standing for `CURRENT_TIMESTAMP` (strictly monotone across decision
inserts, so decision timestamps are distinct as the undo protocol assumes). -/
structure DBState where
  candidates : List Candidate
  decisions : List Decision
  confirmed : List ConfirmedFlight
  nextCandidateId : Nat
  nextDecisionId : Nat
  nextConfirmedId : Nat
  clock : Nat
deriving Repr, DecidableEq

def initialState : DBState := ⟨[], [], [], 1, 1, 1, 0⟩

/-- The `Omit<EmailCandidate, 'id' | 'fetched_at' | 'reviewed'>` input rows of
`insertCandidates`. -/
structure NewCandidate where
  message_id : String
  gmail_uid : String
  subject : String
  from_email : String
  msg_date : String
  preview_text : String
  html_content : String
  plain_text : String
  confidence_score : Int
  detection_reasons : String
deriving Repr, DecidableEq

def mkCandidate (id fetchedAt : Nat) (c : NewCandidate) : Candidate :=
  ⟨id, c.message_id, c.gmail_uid, c.subject, c.from_email, c.msg_date, c.preview_text,
   c.html_content, c.plain_text, c.confidence_score, c.detection_reasons, fetchedAt, false⟩

/-- The UNIQUE-constraint check: some stored candidate has message id `m`. -/
def hasMsg (s : DBState) (m : String) : Bool :=
  s.candidates.any (fun c => decide (c.message_id = m))

/-- One `stmt.run` of the `INSERT OR IGNORE INTO email_candidates` statement:
if a row with the same `message_id` exists (UNIQUE constraint) the insert is
silently ignored, otherwise the row is appended with the next AUTOINCREMENT id. -/
def insertOneCandidate (s : DBState) (c : NewCandidate) : DBState :=
  if hasMsg s c.message_id then s
  else { s with
    candidates := s.candidates ++ [mkCandidate s.nextCandidateId s.clock c],
    nextCandidateId := s.nextCandidateId + 1 }

/-- `insertCandidates` (the transaction body; no statement inside can fail
because duplicates are swallowed by `OR IGNORE`).  The TS function returns
`candidates.length`, the attempted count. -/
def insertCandidatesDB (s : DBState) (rows : List NewCandidate) : DBState :=
  rows.foldl insertOneCandidate s

/-- Sort relation of `ORDER BY confidence_score DESC, msg_date DESC`:
`candLE a b` holds when row `a` may appear before row `b`.  SQLite compares
`TEXT` values byte by byte; on UTF-8 data this is the code-point lexicographic
order on the character list. -/
def candLE (a b : Candidate) : Prop :=
  b.confidence_score < a.confidence_score ∨
    (a.confidence_score = b.confidence_score ∧ b.msg_date.toList ≤ a.msg_date.toList)

instance : DecidableRel candLE := fun a b => by unfold candLE; infer_instance

instance : IsTotal Candidate candLE := by
  constructor
  intro a b
  rcases lt_trichotomy a.confidence_score b.confidence_score with h | h | h
  · exact Or.inr (Or.inl h)
  · rcases le_total a.msg_date.toList b.msg_date.toList with hd | hd
    · exact Or.inr (Or.inr ⟨h.symm, hd⟩)
    · exact Or.inl (Or.inr ⟨h, hd⟩)
  · exact Or.inl (Or.inl h)

instance : IsTrans Candidate candLE := by
  constructor
  intro a b c hab hbc
  rcases hab with h1 | ⟨e1, d1⟩
  · rcases hbc with h2 | ⟨e2, d2⟩
    · exact Or.inl (h2.trans h1)
    · exact Or.inl (e2 ▸ h1)
  · rcases hbc with h2 | ⟨e2, d2⟩
    · exact Or.inl (lt_of_lt_of_eq h2 e1.symm)
    · exact Or.inr ⟨e1.trans e2, d2.trans d1⟩

/-- `getUnreviewedCandidates`:
`SELECT * WHERE reviewed = 0 ORDER BY confidence_score DESC, msg_date DESC LIMIT ?`. -/
def getUnreviewedCandidates (s : DBState) (limit : Nat) : List Candidate :=
  ((s.candidates.filter (fun c => !c.reviewed)).insertionSort candLE).take limit

/-- `insertReviewDecision`: appends a decision row timestamped with the current
clock; the clock then advances. -/
def insertReviewDecision (s : DBState) (emailCandidateId : Nat) (messageId : String)
    (isFlightConfirmation : Bool) (notes : Option String) : DBState :=
  { s with
    decisions := s.decisions ++
      [⟨s.nextDecisionId, emailCandidateId, messageId, isFlightConfirmation, s.clock, notes⟩],
    nextDecisionId := s.nextDecisionId + 1,
    clock := s.clock + 1 }

/-- `UPDATE email_candidates SET reviewed = b WHERE id = ?` applied to one row. -/
def setReviewed (b : Bool) (i : Nat) (c : Candidate) : Candidate :=
  if c.id = i then { c with reviewed := b } else c

/-- `markAsReviewed`. -/
def markAsReviewed (s : DBState) (candidateId : Nat) : DBState :=
  { s with candidates := s.candidates.map (setReviewed true candidateId) }

/-- `markAsUnreviewed`. -/
def markAsUnreviewed (s : DBState) (candidateId : Nat) : DBState :=
  { s with candidates := s.candidates.map (setReviewed false candidateId) }

/-- `countUnreviewed`. -/
def countUnreviewed (s : DBState) : Nat :=
  (s.candidates.filter (fun c => !c.reviewed)).length

/-- `countReviewed`. -/
def countReviewed (s : DBState) : Nat :=
  (s.candidates.filter (fun c => c.reviewed)).length

/-- `countTotalCandidates`. -/
def countTotalCandidates (s : DBState) : Nat := s.candidates.length

/-- `countConfirmedFlights`: counts decision rows with a positive verdict. -/
def countConfirmedFlights (s : DBState) : Nat :=
  (s.decisions.filter (fun d => d.is_flight_confirmation)).length

/-- `countRejected`: counts decision rows with a negative verdict. -/
def countRejected (s : DBState) : Nat :=
  (s.decisions.filter (fun d => !d.is_flight_confirmation)).length

/-- `getCandidateByMessageId`: the `message_id` column is UNIQUE, so the first
matching row is the only one. -/
def getCandidateByMessageId (s : DBState) (messageId : String) : Option Candidate :=
  s.candidates.find? (fun c => decide (c.message_id = messageId))

/-- `insertConfirmedFlight` (`INSERT OR IGNORE` keyed on `message_id`). -/
def insertConfirmedFlight (s : DBState) (messageId gmailUid subject : String) : DBState :=
  if s.confirmed.any (fun f => decide (f.message_id = messageId)) then s
  else { s with
    confirmed := s.confirmed ++
      [⟨s.nextConfirmedId, messageId, gmailUid, subject, false, s.clock⟩],
    nextConfirmedId := s.nextConfirmedId + 1 }

/-- Comparison step of `ORDER BY reviewed_at DESC LIMIT 1`. -/
def laterDecision (a b : Decision) : Decision :=
  if a.reviewed_at < b.reviewed_at then b else a

/-- `getLastDecision`: the decision row with the greatest `reviewed_at`
(timestamps are distinct because the clock is strictly monotone). -/
def getLastDecision (s : DBState) : Option Decision :=
  match s.decisions with
  | [] => none
  | d :: ds => some (ds.foldl laterDecision d)

/-- `deleteDecision`. -/
def deleteDecision (s : DBState) (decisionId : Nat) : DBState :=
  { s with decisions := s.decisions.filter (fun d => !decide (d.id = decisionId)) }

/-- SQLite `LIKE` character comparison: case-insensitive on ASCII letters only
(exactly `Char.toLower` folding). -/
def likeCharEq (p c : Char) : Bool := decide (p.toLower = c.toLower)

/-- `tryDrops f s` is `f s || f s.tail || f s.tail.tail || ...`: the
text positions a `%` wildcard can resume matching from. -/
def tryDrops (f : List Char → Bool) : List Char → Bool
  | [] => f []
  | c :: cs => f (c :: cs) || tryDrops f cs

/-- SQLite `LIKE` pattern matching: `%` matches any sequence, `_` any single
character, everything else matches one character up to ASCII case. -/
def likeMatch : List Char → List Char → Bool
  | [], s => s.isEmpty
  | p :: ps, s =>
    if p = '%' then tryDrops (likeMatch ps) s
    else
      match s with
      | [] => false
      | c :: cs => (decide (p = '_') || likeCharEq p c) && likeMatch ps cs

/-- The pattern `'%' + query + '%'` that `searchCandidates` builds. -/
def likePat (query : String) : List Char := '%' :: (query.toList ++ ['%'])

/-- The `WHERE` clause of `searchCandidates`. -/
def searchMatches (query : String) (reviewedFilter : Option Bool) (c : Candidate) : Bool :=
  (likeMatch (likePat query) c.subject.toList ||
    likeMatch (likePat query) c.from_email.toList ||
      likeMatch (likePat query) c.message_id.toList) &&
    (match reviewedFilter with
     | none => true
     | some b => c.reviewed = b)

/-- Sort relation of `ORDER BY msg_date DESC`. -/
def dateLE (a b : Candidate) : Prop := b.msg_date.toList ≤ a.msg_date.toList

instance : DecidableRel dateLE := fun a b => by unfold dateLE; infer_instance

instance : IsTotal Candidate dateLE :=
  ⟨fun a b => (le_total b.msg_date.toList a.msg_date.toList).imp (fun h => h) (fun h => h)⟩

instance : IsTrans Candidate dateLE :=
  ⟨fun _ _ _ hab hbc => le_trans hbc hab⟩

/-- `searchCandidates`: `LIKE` filter over subject / sender / message id,
optional exact filter on `reviewed`, `ORDER BY msg_date DESC LIMIT 100`. -/
def searchCandidates (s : DBState) (query : String) (reviewedFilter : Option Bool) :
    List Candidate :=
  ((s.candidates.filter (searchMatches query reviewedFilter)).insertionSort dateLE).take 100

/-! ## Review service (`routes.ts`) -/

/-- The error kinds the route handlers produce (HTTP 400 / 404 / 500). -/
inductive ApiError where
  | invalidInput
  | notFound
  | storageFailure
deriving Repr, DecidableEq

instance {ε α : Type} [DecidableEq ε] [DecidableEq α] : DecidableEq (Except ε α) :=
  fun a b =>
    match a, b with
    | .ok x, .ok y =>
      if h : x = y then .isTrue (by rw [h]) else .isFalse (fun hc => by cases hc; exact h rfl)
    | .error x, .error y =>
      if h : x = y then .isTrue (by rw [h]) else .isFalse (fun hc => by cases hc; exact h rfl)
    | .ok _, .error _ => .isFalse (fun hc => by cases hc)
    | .error _, .ok _ => .isFalse (fun hc => by cases hc)

/-- `ReviewDecision` request body.  The verdict is `Bool`-typed in the model,
matching the handler's `typeof decision.is_flight_confirmation !== 'boolean'`
guard; `!decision.email_id` rejects the empty string (a JS falsy value). -/
structure ReviewRequest where
  email_id : String
  is_flight_confirmation : Bool
  notes : Option String
deriving Repr, DecidableEq

/-- The state after the first `k` of the review handler's three sequential
writes (decision insert, reviewed flag, confirmed-flight insert on a positive
verdict) have run against the looked-up candidate.  `k = 3` is the complete
run. -/
def submitPrefixState (s : DBState) (req : ReviewRequest) (candidate : Candidate)
    (k : Nat) : DBState :=
  let s1 := insertReviewDecision s candidate.id req.email_id req.is_flight_confirmation
    req.notes
  let s2 := markAsReviewed s1 candidate.id
  let s3 := if req.is_flight_confirmation then
    insertConfirmedFlight s2 req.email_id candidate.gmail_uid candidate.subject
  else s2
  if k = 0 then s else if k = 1 then s1 else if k = 2 then s2 else s3

/-- `POST /api/emails/review`: validate, look the candidate up, insert the
decision row, flag the candidate reviewed, and on a positive verdict insert a
`confirmed_flights` row; returns the new state and the remaining unreviewed
count.  The three writes run sequentially with no enclosing transaction. -/
def submitReview (s : DBState) (req : ReviewRequest) : Except ApiError (DBState × Nat) :=
  if req.email_id = "" then .error .invalidInput
  else
    match getCandidateByMessageId s req.email_id with
    | none => .error .notFound
    | some candidate =>
      .ok (submitPrefixState s req candidate 3,
        countUnreviewed (submitPrefixState s req candidate 3))

/-- The mutation performed by a successful undo of decision `lastDecision`. -/
def undoState (s : DBState) (lastDecision : Decision) : DBState :=
  markAsUnreviewed (deleteDecision s lastDecision.id) lastDecision.email_candidate_id

/-- `POST /api/emails/undo`: delete the most recent decision row and flip its
candidate back to unreviewed; 404 when the decision log is empty.  The handler
never touches `confirmed_flights`. -/
def undoLast (s : DBState) : Except ApiError (DBState × String) :=
  match getLastDecision s with
  | none => .error .notFound
  | some lastDecision => .ok (undoState s lastDecision, lastDecision.message_id)

/-- Fault-injection semantics of the review handler: the state that is left
behind when the first `k` of its three writes succeed and the next write raises
a storage error.  There is no transaction, and the `catch` block only reports
HTTP 500, so the writes that already ran persist. -/
def submitReviewAfterWrites (s : DBState) (req : ReviewRequest) (k : Nat) :
    Option DBState :=
  if req.email_id = "" then none
  else
    match getCandidateByMessageId s req.email_id with
    | none => none
    | some candidate => some (submitPrefixState s req candidate k)

/-! ## Reachable store states

The store is mutated only through the service operations: batch ingestion,
decision submission and undo (fetch, search and stats are reads). -/

inductive Reachable : DBState → Prop where
  | init : Reachable initialState
  | insert {s : DBState} (rows : List NewCandidate) :
      Reachable s → Reachable (insertCandidatesDB s rows)
  | review {s s' : DBState} {req : ReviewRequest} {n : Nat} :
      Reachable s → submitReview s req = .ok (s', n) → Reachable s'
  | undo {s s' : DBState} {m : String} :
      Reachable s → undoLast s = .ok (s', m) → Reachable s'

/-- Well-formedness facts maintained by every service operation: AUTOINCREMENT
ids are distinct and below their counters, the UNIQUE `message_id` constraint
holds, decision timestamps are below the clock, and a reviewed candidate has a
nonempty message id (it was reviewed through the handler's validation). -/
structure WF (s : DBState) : Prop where
  candIdsDistinct : s.candidates.Pairwise (fun a b => a.id ≠ b.id)
  candMsgsDistinct : s.candidates.Pairwise (fun a b => a.message_id ≠ b.message_id)
  candIdsLt : ∀ c ∈ s.candidates, c.id < s.nextCandidateId
  decIdsLt : ∀ d ∈ s.decisions, d.id < s.nextDecisionId
  decTimesLt : ∀ d ∈ s.decisions, d.reviewed_at < s.clock
  revNonempty : ∀ c ∈ s.candidates, c.reviewed = true → c.message_id ≠ ""

/-! ## Spec-side search predicate

The spec describes `searchCandidates` as a *literal* case-insensitive
substring match; the code interpolates the raw query into a `LIKE` pattern.
The following definitions follow the spec's words, for comparison with
`searchMatches` above. -/

/-- `q` is a prefix of `s` up to ASCII case. -/
def lowerStartsWith : List Char → List Char → Bool
  | [], _ => true
  | _ :: _, [] => false
  | p :: ps, c :: cs => likeCharEq p c && lowerStartsWith ps cs

/-- Modelled from the spec: `q` occurs in `s` as a case-insensitive literal
substring. -/
def containsCI (q s : List Char) : Bool := tryDrops (lowerStartsWith q) s

/-- Modelled from the spec: "candidates whose subject, sender address, or
message identifier contains the query text as a case-insensitive literal
substring, further filtered by exact reviewed state when the optional filter
is supplied". -/
def specSearchMatches (query : String) (reviewedFilter : Option Bool) (c : Candidate) : Bool :=
  (containsCI query.toList c.subject.toList ||
    containsCI query.toList c.from_email.toList ||
      containsCI query.toList c.message_id.toList) &&
    (match reviewedFilter with
     | none => true
     | some b => c.reviewed = b)

/-- The query contains no `LIKE` metacharacter. -/
def wildcardFree (query : String) : Bool :=
  query.toList.all (fun c => !decide (c = '%') && !decide (c = '_'))

/-! ## Concrete scenario states used by counterexamples and witnesses -/

/-- Extract the next state of a successful review submission. -/
def okStateR (r : Except ApiError (DBState × Nat)) : DBState :=
  match r with
  | .ok p => p.1
  | .error _ => initialState

/-- Extract the next state of a successful undo. -/
def okStateU (r : Except ApiError (DBState × String)) : DBState :=
  match r with
  | .ok p => p.1
  | .error _ => initialState

/-- An ingestion row with the given identifier, date and score. -/
def demoRow (m dt : String) (sc : Int) : NewCandidate :=
  ⟨m, "uid-" ++ m, "subj-" ++ m, "from-" ++ m, dt, "pv", "<p>", "txt", sc, "[]"⟩

/-- One candidate `m1`, ingested. -/
def oneCandState : DBState := insertCandidatesDB initialState [demoRow "m1" "2024-01-01" 85]

/-- `m1` rejected (reviewed, negative decision). -/
def oneRejectedState : DBState := okStateR (submitReview oneCandState ⟨"m1", false, none⟩)

/-- `m1` rejected, then confirmed by a second decision without undo. -/
def twiceReviewedState : DBState :=
  okStateR (submitReview oneRejectedState ⟨"m1", true, none⟩)

/-- The previous state after one undo. -/
def afterUndoState : DBState := okStateU (undoLast twiceReviewedState)

/-- Two candidates `m1`, `m2`, ingested. -/
def twoCandState : DBState :=
  insertCandidatesDB initialState [demoRow "m1" "2024-01-01" 85, demoRow "m2" "2024-01-02" 90]

/-- Both candidates reviewed (two decisions in the log). -/
def twoDecisionState : DBState :=
  okStateR (submitReview (okStateR (submitReview twoCandState ⟨"m1", false, none⟩))
    ⟨"m2", false, none⟩)

/-- `twoDecisionState` after one undo. -/
def afterFirstUndoState : DBState := okStateU (undoLast twoDecisionState)

/-- `m1` confirmed (one positive decision). -/
def oneConfirmedState : DBState := okStateR (submitReview oneCandState ⟨"m1", true, none⟩)

end GmailTripit

namespace GmailTripit

/-! ## List-level helper lemmas -/

theorem find?_msg_eq_some {l : List Candidate} {c : Candidate}
    (hu : l.Pairwise (fun a b => a.message_id ≠ b.message_id)) (hc : c ∈ l) :
    l.find? (fun d => decide (d.message_id = c.message_id)) = some c := by
  induction l with
  | nil => cases hc
  | cons a t ih =>
    rcases List.pairwise_cons.1 hu with ⟨ha, ht⟩
    rcases List.mem_cons.1 hc with rfl | hct
    · rw [List.find?_cons_of_pos _ (by simp)]
    · have hne : a.message_id ≠ c.message_id := ha c hct
      rw [List.find?_cons_of_neg _ (by simp [hne])]
      exact ih ht hct

theorem eq_of_mem_id {l : List Candidate}
    (hu : l.Pairwise (fun a b => a.id ≠ b.id)) {c : Candidate} (hc : c ∈ l) :
    ∀ x ∈ l, x.id = c.id → x = c := by
  induction l with
  | nil => cases hc
  | cons a t ih =>
    rcases List.pairwise_cons.1 hu with ⟨ha, ht⟩
    intro x hx hid
    rcases List.mem_cons.1 hc with rfl | hct
    · rcases List.mem_cons.1 hx with rfl | hxt
      · rfl
      · exact absurd hid (ha x hxt).symm
    · rcases List.mem_cons.1 hx with rfl | hxt
      · exact absurd hid (ha c hct)
      · exact ih ht hct x hxt hid

theorem foldl_laterDecision_mem (ds : List Decision) (a : Decision) :
    ds.foldl laterDecision a = a ∨ ds.foldl laterDecision a ∈ ds := by
  induction ds generalizing a with
  | nil => exact Or.inl rfl
  | cons b t ih =>
    rw [List.foldl_cons]
    rcases ih (laterDecision a b) with h | h
    · rw [h]
      unfold laterDecision
      split
      · exact Or.inr (List.mem_cons_self b t)
      · exact Or.inl rfl
    · exact Or.inr (List.mem_cons_of_mem b h)

theorem foldl_laterDecision_concat (ds : List Decision) (a d : Decision)
    (h : ∀ x, (x = a ∨ x ∈ ds) → x.reviewed_at < d.reviewed_at) :
    (ds ++ [d]).foldl laterDecision a = d := by
  rw [List.foldl_append]
  simp only [List.foldl_cons, List.foldl_nil]
  have hlt : (ds.foldl laterDecision a).reviewed_at < d.reviewed_at :=
    h _ (foldl_laterDecision_mem ds a)
  set r := ds.foldl laterDecision a with hr
  show laterDecision r d = d
  unfold laterDecision
  rw [if_pos hlt]

theorem getLastDecision_concat {t : DBState} {ds : List Decision} {d : Decision}
    (hd : t.decisions = ds ++ [d]) (h : ∀ x ∈ ds, x.reviewed_at < d.reviewed_at) :
    getLastDecision t = some d := by
  unfold getLastDecision
  rw [hd]
  cases ds with
  | nil => simp
  | cons a t' =>
    simp only [List.cons_append]
    rw [foldl_laterDecision_concat t' a d]
    intro x hx
    rcases hx with rfl | hxt
    · exact h x (List.mem_cons_self x t')
    · exact h x (List.mem_cons_of_mem a hxt)

theorem filter_ne_id_concat {ds : List Decision} {d : Decision}
    (h : ∀ x ∈ ds, x.id ≠ d.id) :
    (ds ++ [d]).filter (fun x => !decide (x.id = d.id)) = ds := by
  rw [List.filter_append]
  have h1 : ds.filter (fun x => !decide (x.id = d.id)) = ds :=
    List.filter_eq_self.2 (fun a ha => by simp [h a ha])
  simp [h1]

theorem setReviewed_id (b : Bool) (i : Nat) (c : Candidate) :
    (setReviewed b i c).id = c.id := by
  unfold setReviewed; split <;> rfl

theorem setReviewed_msg (b : Bool) (i : Nat) (c : Candidate) :
    (setReviewed b i c).message_id = c.message_id := by
  unfold setReviewed; split <;> rfl

theorem setReviewed_comp (b1 b2 : Bool) (i : Nat) (c : Candidate) :
    setReviewed b2 i (setReviewed b1 i c) = setReviewed b2 i c := by
  unfold setReviewed
  by_cases h : c.id = i <;> simp [h]

theorem map_setReviewed_map (b1 b2 : Bool) (i : Nat) (l : List Candidate) :
    (l.map (setReviewed b1 i)).map (setReviewed b2 i) = l.map (setReviewed b2 i) := by
  rw [List.map_map]
  congr 1
  funext c
  exact setReviewed_comp b1 b2 i c

theorem map_setReviewed_eq_self {l : List Candidate} {i : Nat} {b : Bool}
    (h : ∀ c ∈ l, c.id = i → c.reviewed = b) :
    l.map (setReviewed b i) = l := by
  induction l with
  | nil => rfl
  | cons a t ih =>
    have ha : setReviewed b i a = a := by
      unfold setReviewed
      split
      · next hid =>
        have hr := h a (List.mem_cons_self a t) hid
        cases a
        simp_all
      · rfl
    rw [List.map_cons, ha, ih (fun c hc hid => h c (List.mem_cons_of_mem a hc) hid)]

theorem count_unrev_map_setReviewed_false {l : List Candidate}
    (hu : l.Pairwise (fun a b => a.id ≠ b.id)) {c : Candidate} (hc : c ∈ l)
    (hr : c.reviewed = true) :
    ((l.map (setReviewed false c.id)).filter (fun x => !x.reviewed)).length =
      (l.filter (fun x => !x.reviewed)).length + 1 := by
  induction l with
  | nil => cases hc
  | cons a t ih =>
    rcases List.pairwise_cons.1 hu with ⟨ha, ht⟩
    rcases List.mem_cons.1 hc with rfl | hct
    · have hh : setReviewed false c.id c = { c with reviewed := false } := by
        unfold setReviewed; simp
      have htl : t.map (setReviewed false c.id) = t :=
        map_setReviewed_eq_self (fun x hx hid => absurd hid.symm (ha x hx))
      rw [List.map_cons, hh, htl]
      simp [List.filter_cons, hr]
    · have hh : setReviewed false c.id a = a := by
        unfold setReviewed
        split
        · next hid => exact absurd hid (ha c hct)
        · rfl
      rw [List.map_cons, hh]
      rcases hrev : a.reviewed with _ | _ <;>
        simp [List.filter_cons, hrev, ih ht hct, Nat.add_assoc, Nat.add_comm 1]

/-! ## Ingestion lemmas -/

theorem insertOneCandidate_skip {s : DBState} {r : NewCandidate}
    (h : hasMsg s r.message_id = true) : insertOneCandidate s r = s := by
  unfold insertOneCandidate
  rw [if_pos h]

theorem hasMsg_insertOne {s : DBState} {m : String} (r : NewCandidate)
    (h : hasMsg s m = true) : hasMsg (insertOneCandidate s r) m = true := by
  unfold insertOneCandidate
  split
  · exact h
  · unfold hasMsg at *
    simp only [List.any_append]
    simp [h]

theorem hasMsg_insertList {s : DBState} {m : String} (rows : List NewCandidate)
    (h : hasMsg s m = true) : hasMsg (insertCandidatesDB s rows) m = true := by
  induction rows generalizing s with
  | nil => exact h
  | cons r t ih => exact ih (hasMsg_insertOne r h)

theorem insertList_skip_dup {s : DBState} {m : String} (xs ys : List NewCandidate)
    {r : NewCandidate} (hrm : r.message_id = m) (h : hasMsg s m = true) :
    insertCandidatesDB s (xs ++ r :: ys) = insertCandidatesDB s (xs ++ ys) := by
  induction xs generalizing s with
  | nil =>
    show insertCandidatesDB (insertOneCandidate s r) ys = insertCandidatesDB s ys
    rw [insertOneCandidate_skip (hrm ▸ h)]
  | cons x t ih =>
    show insertCandidatesDB (insertOneCandidate s x) (t ++ r :: ys) =
      insertCandidatesDB (insertOneCandidate s x) (t ++ ys)
    exact ih (hasMsg_insertOne x h)

theorem find?_insertOne {s : DBState} {m : String} (r : NewCandidate)
    (h : hasMsg s m = true) :
    getCandidateByMessageId (insertOneCandidate s r) m = getCandidateByMessageId s m := by
  unfold insertOneCandidate
  split
  · rfl
  · unfold getCandidateByMessageId hasMsg at *
    simp only [List.find?_append]
    rcases hf : s.candidates.find? (fun c => decide (c.message_id = m)) with _ | c
    · exfalso
      rw [List.any_eq_true] at h
      rcases h with ⟨c, hc, hcm⟩
      have := List.find?_eq_none.1 hf c hc
      simp_all
    · rw [hf]
      rfl

theorem find?_insertList {s : DBState} {m : String} (rows : List NewCandidate)
    (h : hasMsg s m = true) :
    getCandidateByMessageId (insertCandidatesDB s rows) m = getCandidateByMessageId s m := by
  induction rows generalizing s with
  | nil => rfl
  | cons r t ih =>
    show getCandidateByMessageId (insertCandidatesDB (insertOneCandidate s r) t) m = _
    rw [ih (hasMsg_insertOne r h), find?_insertOne r h]

theorem countMsg_insertOne {s : DBState} {m : String} (r : NewCandidate)
    (h : hasMsg s m = true) :
    ((insertOneCandidate s r).candidates.filter (fun c => decide (c.message_id = m))).length =
      (s.candidates.filter (fun c => decide (c.message_id = m))).length := by
  unfold insertOneCandidate
  split
  · rfl
  · next hguard =>
    have hrm : r.message_id ≠ m := by
      intro hrm
      rw [hrm] at hguard
      exact hguard h
    simp [List.filter_append, hrm, mkCandidate]

theorem countMsg_insertList {s : DBState} {m : String} (rows : List NewCandidate)
    (h : hasMsg s m = true) :
    ((insertCandidatesDB s rows).candidates.filter
        (fun c => decide (c.message_id = m))).length =
      (s.candidates.filter (fun c => decide (c.message_id = m))).length := by
  induction rows generalizing s with
  | nil => rfl
  | cons r t ih =>
    show ((insertCandidatesDB (insertOneCandidate s r) t).candidates.filter _).length = _
    rw [ih (hasMsg_insertOne r h), countMsg_insertOne r h]

theorem countMsg_one {l : List Candidate}
    (hu : l.Pairwise (fun a b => a.message_id ≠ b.message_id)) {c : Candidate} (hc : c ∈ l) :
    (l.filter (fun x => decide (x.message_id = c.message_id))).length = 1 := by
  induction l with
  | nil => cases hc
  | cons a t ih =>
    rcases List.pairwise_cons.1 hu with ⟨ha, ht⟩
    rcases List.mem_cons.1 hc with rfl | hct
    · have htl : t.filter (fun x => decide (x.message_id = c.message_id)) = [] := by
        rw [List.filter_eq_nil_iff]
        intro x hx
        simp only [decide_eq_true_eq]
        exact fun hh => ha x hx hh.symm
      simp [List.filter_cons, htl]
    · have hne : a.message_id ≠ c.message_id := ha c hct
      simp [List.filter_cons, hne, ih ht hct]

/-! ## Component lemmas for the service operations -/

theorem insertConfirmedFlight_decisions (s : DBState) (m u j : String) :
    (insertConfirmedFlight s m u j).decisions = s.decisions := by
  unfold insertConfirmedFlight; split <;> rfl

theorem insertConfirmedFlight_candidates (s : DBState) (m u j : String) :
    (insertConfirmedFlight s m u j).candidates = s.candidates := by
  unfold insertConfirmedFlight; split <;> rfl

theorem insertConfirmedFlight_any (s : DBState) (m u j : String) :
    (insertConfirmedFlight s m u j).confirmed.any (fun f => decide (f.message_id = m)) =
      true := by
  unfold insertConfirmedFlight
  split
  · next h => exact h
  · simp [List.any_append]

theorem submitPrefixState3_decisions (s : DBState) (req : ReviewRequest) (c : Candidate) :
    (submitPrefixState s req c 3).decisions = s.decisions ++
      [⟨s.nextDecisionId, c.id, req.email_id, req.is_flight_confirmation, s.clock,
        req.notes⟩] := by
  simp only [submitPrefixState]
  norm_num
  split
  · rw [insertConfirmedFlight_decisions]
    rfl
  · rfl

theorem submitPrefixState3_candidates (s : DBState) (req : ReviewRequest) (c : Candidate) :
    (submitPrefixState s req c 3).candidates = s.candidates.map (setReviewed true c.id) := by
  simp only [submitPrefixState]
  norm_num
  split
  · rw [insertConfirmedFlight_candidates]
    rfl
  · rfl

theorem submitPrefixState3_clock (s : DBState) (req : ReviewRequest) (c : Candidate) :
    (submitPrefixState s req c 3).clock = s.clock + 1 := by
  simp only [submitPrefixState]
  norm_num
  split
  · unfold insertConfirmedFlight
    split <;> rfl
  · rfl

theorem submitPrefixState3_nextDecisionId (s : DBState) (req : ReviewRequest) (c : Candidate) :
    (submitPrefixState s req c 3).nextDecisionId = s.nextDecisionId + 1 := by
  simp only [submitPrefixState]
  norm_num
  split
  · unfold insertConfirmedFlight
    split <;> rfl
  · rfl

theorem submitPrefixState3_confirmed (s : DBState) (req : ReviewRequest) (c : Candidate) :
    (submitPrefixState s req c 3).confirmed =
      if req.is_flight_confirmation then
        (insertConfirmedFlight (submitPrefixState s req c 2) req.email_id c.gmail_uid
          c.subject).confirmed
      else s.confirmed := by
  simp only [submitPrefixState]
  norm_num
  split <;> rfl

theorem submitReview_eq_ok {s s' : DBState} {req : ReviewRequest} {n : Nat}
    (h : submitReview s req = .ok (s', n)) :
    req.email_id ≠ "" ∧ ∃ c, getCandidateByMessageId s req.email_id = some c ∧
      s' = submitPrefixState s req c 3 := by
  unfold submitReview at h
  split at h
  · cases h
  · next hne =>
    rcases hcb : getCandidateByMessageId s req.email_id with _ | c
    · rw [hcb] at h
      cases h
    · rw [hcb] at h
      simp only [Except.ok.injEq, Prod.mk.injEq] at h
      exact ⟨hne, c, rfl, h.1.symm⟩

theorem submitReview_ok_of_found {s : DBState} {c : Candidate} {req : ReviewRequest}
    (hne : req.email_id ≠ "") (hfound : getCandidateByMessageId s req.email_id = some c) :
    submitReview s req = .ok (submitPrefixState s req c 3,
      countUnreviewed (submitPrefixState s req c 3)) := by
  unfold submitReview
  rw [if_neg hne, hfound]

theorem undoLast_eq_ok {s s' : DBState} {m : String} (h : undoLast s = .ok (s', m)) :
    ∃ d, getLastDecision s = some d ∧ s' = undoState s d ∧ m = d.message_id := by
  unfold undoLast at h
  rcases hld : getLastDecision s with _ | d
  · rw [hld] at h
    cases h
  · rw [hld] at h
    simp only [Except.ok.injEq, Prod.mk.injEq] at h
    exact ⟨d, rfl, h.1.symm, h.2.symm⟩

theorem getCandidateByMessageId_some {s : DBState} {m : String} {c : Candidate}
    (h : getCandidateByMessageId s m = some c) : c ∈ s.candidates ∧ c.message_id = m := by
  unfold getCandidateByMessageId at h
  exact ⟨List.mem_of_find?_eq_some h, by simpa using List.find?_some h⟩

/-! ## Preservation of the store invariants -/

theorem wf_initial : WF initialState := by
  constructor <;> simp [initialState]

theorem wf_insertOne {s : DBState} (hw : WF s) (r : NewCandidate) :
    WF (insertOneCandidate s r) := by
  unfold insertOneCandidate
  split
  · exact hw
  · next hguard =>
    have hnew : ∀ c ∈ s.candidates, c.message_id ≠ r.message_id := by
      intro c hc hcm
      exact hguard (by unfold hasMsg; rw [List.any_eq_true]; exact ⟨c, hc, by simp [hcm]⟩)
    constructor
    · rw [List.pairwise_append]
      refine ⟨hw.candIdsDistinct, by simp, ?_⟩
      intro a ha b hb
      simp only [List.mem_singleton] at hb
      subst hb
      exact Nat.ne_of_lt (hw.candIdsLt a ha)
    · rw [List.pairwise_append]
      refine ⟨hw.candMsgsDistinct, by simp, ?_⟩
      intro a ha b hb
      simp only [List.mem_singleton] at hb
      subst hb
      exact hnew a ha
    · intro c hc
      rcases List.mem_append.1 hc with h | h
      · exact Nat.lt_succ_of_lt (hw.candIdsLt c h)
      · simp only [List.mem_singleton] at h
        subst h
        exact Nat.lt_succ_self _
    · exact hw.decIdsLt
    · exact hw.decTimesLt
    · intro c hc hrev
      rcases List.mem_append.1 hc with h | h
      · exact hw.revNonempty c h hrev
      · simp only [List.mem_singleton] at h
        subst h
        cases hrev

theorem wf_insertList {s : DBState} (hw : WF s) (rows : List NewCandidate) :
    WF (insertCandidatesDB s rows) := by
  induction rows generalizing s with
  | nil => exact hw
  | cons r t ih => exact ih (wf_insertOne hw r)

theorem wf_submitPrefix3 {s : DBState} (hw : WF s) {req : ReviewRequest} {c : Candidate}
    (hne : req.email_id ≠ "")
    (hfound : getCandidateByMessageId s req.email_id = some c) :
    WF (submitPrefixState s req c 3) := by
  obtain ⟨hcmem, hcmsg⟩ := getCandidateByMessageId_some hfound
  have hid : ∀ x ∈ s.candidates, x.id = c.id → x = c :=
    eq_of_mem_id hw.candIdsDistinct hcmem
  constructor
  · rw [submitPrefixState3_candidates, List.pairwise_map]
    exact hw.candIdsDistinct.imp (fun h => by rwa [setReviewed_id, setReviewed_id])
  · rw [submitPrefixState3_candidates, List.pairwise_map]
    exact hw.candMsgsDistinct.imp (fun h => by rwa [setReviewed_msg, setReviewed_msg])
  · rw [submitPrefixState3_candidates]
    intro x hx
    rcases List.mem_map.1 hx with ⟨y, hy, rfl⟩
    rw [setReviewed_id]
    have : (submitPrefixState s req c 3).nextCandidateId = s.nextCandidateId := by
      simp only [submitPrefixState]
      norm_num
      split
      · unfold insertConfirmedFlight
        split <;> rfl
      · rfl
    rw [this]
    exact hw.candIdsLt y hy
  · rw [submitPrefixState3_decisions, submitPrefixState3_nextDecisionId]
    intro d hd
    rcases List.mem_append.1 hd with h | h
    · exact Nat.lt_succ_of_lt (hw.decIdsLt d h)
    · simp only [List.mem_singleton] at h
      subst h
      exact Nat.lt_succ_self _
  · rw [submitPrefixState3_decisions, submitPrefixState3_clock]
    intro d hd
    rcases List.mem_append.1 hd with h | h
    · exact Nat.lt_succ_of_lt (hw.decTimesLt d h)
    · simp only [List.mem_singleton] at h
      subst h
      exact Nat.lt_succ_self _
  · rw [submitPrefixState3_candidates]
    intro x hx hrev
    rcases List.mem_map.1 hx with ⟨y, hy, rfl⟩
    rw [setReviewed_msg]
    by_cases hyc : y.id = c.id
    · rw [hid y hy hyc, hcmsg]
      exact hne
    · have hxy : setReviewed true c.id y = y := by
        unfold setReviewed
        rw [if_neg hyc]
      rw [hxy] at hrev
      exact hw.revNonempty y hy hrev

theorem wf_undoState {s : DBState} (hw : WF s) (d : Decision) : WF (undoState s d) := by
  constructor
  · rw [show (undoState s d).candidates =
        s.candidates.map (setReviewed false d.email_candidate_id) from rfl,
      List.pairwise_map]
    exact hw.candIdsDistinct.imp (fun h => by rwa [setReviewed_id, setReviewed_id])
  · rw [show (undoState s d).candidates =
        s.candidates.map (setReviewed false d.email_candidate_id) from rfl,
      List.pairwise_map]
    exact hw.candMsgsDistinct.imp (fun h => by rwa [setReviewed_msg, setReviewed_msg])
  · intro x hx
    rcases List.mem_map.1 hx with ⟨y, hy, rfl⟩
    rw [setReviewed_id]
    exact hw.candIdsLt y hy
  · intro x hx
    exact hw.decIdsLt x (List.mem_of_mem_filter hx)
  · intro x hx
    exact hw.decTimesLt x (List.mem_of_mem_filter hx)
  · intro x hx hrev
    rcases List.mem_map.1 hx with ⟨y, hy, rfl⟩
    rw [setReviewed_msg]
    have hyrev : y.reviewed = true := by
      unfold setReviewed at hrev
      split at hrev
      · cases hrev
      · exact hrev
    exact hw.revNonempty y hy hyrev

theorem reachable_wf {s : DBState} (h : Reachable s) : WF s := by
  induction h with
  | init => exact wf_initial
  | insert rows _ ih => exact wf_insertList ih rows
  | review _ hok ih =>
    obtain ⟨hne, c, hfound, rfl⟩ := submitReview_eq_ok hok
    exact wf_submitPrefix3 ih hne hfound
  | undo _ hok ih =>
    obtain ⟨d, _, rfl, _⟩ := undoLast_eq_ok hok
    exact wf_undoState ih d

/-! ## Classifier lemmas -/

theorem score_eq_sum (e : EmailData) :
    (calculateConfidenceScore e).score =
      (if hasFlightReservationSchema e.html then 50 else 0) +
        (if isKnownSender e.from_email then 20 else 0) +
        (if hasConfirmationKeywords e.subject then 15 else 0) +
        (if hasFlightKeywords e.subject then 10 else 0) +
        (if 2 ≤ (detectFlightMarkers (e.plain_text.getD "")).length then 10 else 0) := by
  by_cases hE : 2 ≤ (detectFlightMarkers (e.plain_text.getD "")).length <;>
    cases hA : hasFlightReservationSchema e.html <;>
    cases hB : isKnownSender e.from_email <;>
    cases hC : hasConfirmationKeywords e.subject <;>
    cases hD : hasFlightKeywords e.subject <;>
    simp [calculateConfidenceScore, hA, hB, hC, hD, hE, ge_iff_le]

theorem score_ne_29 (e : EmailData) : (calculateConfidenceScore e).score ≠ 29 := by
  rw [score_eq_sum]
  by_cases hE : 2 ≤ (detectFlightMarkers (e.plain_text.getD "")).length <;>
    cases hA : hasFlightReservationSchema e.html <;>
    cases hB : isKnownSender e.from_email <;>
    cases hC : hasConfirmationKeywords e.subject <;>
    cases hD : hasFlightKeywords e.subject <;>
    simp [hA, hB, hC, hD, hE]

/-! ## Claim theorems -/

/-- Claim C5: in every reachable store state (in fact in every modelled state:
the `reviewed` column only ever holds 0 or 1, here `Bool`), the aggregate
counts satisfy `countTotal = countReviewed + countUnreviewed`. -/
theorem count_invariant (s : DBState) :
    countTotalCandidates s = countReviewed s + countUnreviewed s := by
  unfold countTotalCandidates countReviewed countUnreviewed
  simpa using List.length_eq_length_filter_add (l := s.candidates) (fun c => c.reviewed)

/-- Claim C6: the decision threshold is the fixed constant 30
(`isCandidate = score ≥ 30`); no email ever scores exactly 29 (rule weights
are 50/20/15/10/10), so every email scoring 29 is — vacuously — rejected, and
an email scoring exactly 30 (known sender +20, flight keyword +10) is
accepted. -/
theorem threshold_is_30 :
    (∀ e, (isCandidateForReview e).isCandidate =
      decide (30 ≤ (calculateConfidenceScore e).score)) ∧
    (∀ e, (calculateConfidenceScore e).score ≠ 29) ∧
    (calculateConfidenceScore ⟨"", "noreply@united.com", "flight", none, "m", "d"⟩).score
      = 30 ∧
    (isCandidateForReview ⟨"", "noreply@united.com", "flight", none, "m", "d"⟩).isCandidate
      = true :=
  ⟨fun _ => rfl, score_ne_29, by decide, by decide⟩

/-- Claim C7: `getUnreviewedCandidates limit` returns only rows with
`reviewed = false`, at most `limit` of them, sorted by score descending with
ties broken by `msg_date` descending (`candLE`); when `limit` covers all
unreviewed rows the result is exactly the unreviewed rows.  Determinism under
repeated calls is inherent: the function is pure in the store state, which a
read does not change. -/
theorem getUnreviewedCandidates_spec (s : DBState) (limit : Nat) :
    (∀ c ∈ getUnreviewedCandidates s limit, c.reviewed = false) ∧
    (getUnreviewedCandidates s limit).length ≤ limit ∧
    (getUnreviewedCandidates s limit).Pairwise candLE ∧
    ((s.candidates.filter (fun c => !c.reviewed)).length ≤ limit →
      (getUnreviewedCandidates s limit).Perm
        (s.candidates.filter (fun c => !c.reviewed))) := by
  refine ⟨?_, ?_, ?_, ?_⟩
  · intro c hc
    unfold getUnreviewedCandidates at hc
    have h1 := List.mem_of_mem_take hc
    have h2 := (List.perm_insertionSort candLE _).mem_iff.1 h1
    simpa using (List.mem_filter.1 h2).2
  · unfold getUnreviewedCandidates
    exact List.length_take_le _ _
  · unfold getUnreviewedCandidates
    exact List.Pairwise.sublist (List.take_sublist _ _)
      (List.sorted_insertionSort candLE _)
  · intro hlen
    unfold getUnreviewedCandidates
    rw [List.take_of_length_le]
    · exact List.perm_insertionSort candLE _
    · rw [(List.perm_insertionSort candLE _).length_eq]
      exact hlen

theorem eq_of_mem_msg {l : List Candidate}
    (hu : l.Pairwise (fun a b => a.message_id ≠ b.message_id)) {c : Candidate} (hc : c ∈ l) :
    ∀ x ∈ l, x.message_id = c.message_id → x = c := by
  induction l with
  | nil => cases hc
  | cons a t ih =>
    rcases List.pairwise_cons.1 hu with ⟨ha, ht⟩
    intro x hx hid
    rcases List.mem_cons.1 hc with rfl | hct
    · rcases List.mem_cons.1 hx with rfl | hxt
      · rfl
      · exact absurd hid (ha x hxt).symm
    · rcases List.mem_cons.1 hx with rfl | hxt
      · exact absurd hid (ha c hct)
      · exact ih ht hct x hxt hid

/-- Claim C4: ingesting a batch containing an already-present message
identifier is a no-op for that row: the whole resulting state is the same as
for the batch without the duplicate (hence `countTotal` is unaffected by the
duplicate), exactly one stored row carries that identifier, its stored content
is not overwritten, and re-ingesting the identifier alone is a no-op. -/
theorem insertCandidates_idempotent (s : DBState) (hr : Reachable s) (m : String)
    (c0 : Candidate) (hc0 : c0 ∈ s.candidates) (hm : c0.message_id = m)
    (xs ys : List NewCandidate) (r : NewCandidate) (hrm : r.message_id = m) :
    insertCandidatesDB s (xs ++ r :: ys) = insertCandidatesDB s (xs ++ ys) ∧
    countTotalCandidates (insertCandidatesDB s (xs ++ r :: ys)) =
      countTotalCandidates (insertCandidatesDB s (xs ++ ys)) ∧
    ((insertCandidatesDB s (xs ++ ys)).candidates.filter
        (fun c => decide (c.message_id = m))).length = 1 ∧
    getCandidateByMessageId (insertCandidatesDB s (xs ++ ys)) m =
      getCandidateByMessageId s m ∧
    insertCandidatesDB s [r] = s := by
  have hw := reachable_wf hr
  have hmsg : hasMsg s m = true := by
    unfold hasMsg
    rw [List.any_eq_true]
    exact ⟨c0, hc0, by simp [hm]⟩
  refine ⟨insertList_skip_dup xs ys hrm hmsg, ?_, ?_, find?_insertList _ hmsg, ?_⟩
  · rw [insertList_skip_dup xs ys hrm hmsg]
  · rw [countMsg_insertList (xs ++ ys) hmsg]
    subst hm
    exact countMsg_one hw.candMsgsDistinct hc0
  · show insertCandidatesDB (insertOneCandidate s r) [] = s
    rw [insertOneCandidate_skip (by rw [hrm]; exact hmsg)]
    rfl

/-- Witness for C4: re-ingesting `m1` (with fresh content) into the store that
already holds it, alongside a new row `m3`. -/
theorem insertCandidates_idempotent_witness :
    insertCandidatesDB twoCandState
        [demoRow "m1" "2099-01-01" 1, demoRow "m3" "2024-03-03" 40] =
      insertCandidatesDB twoCandState [demoRow "m3" "2024-03-03" 40] ∧
    countTotalCandidates (insertCandidatesDB twoCandState
        [demoRow "m1" "2099-01-01" 1, demoRow "m3" "2024-03-03" 40]) =
      countTotalCandidates (insertCandidatesDB twoCandState
        [demoRow "m3" "2024-03-03" 40]) ∧
    ((insertCandidatesDB twoCandState [demoRow "m3" "2024-03-03" 40]).candidates.filter
        (fun c => decide (c.message_id = "m1"))).length = 1 ∧
    getCandidateByMessageId (insertCandidatesDB twoCandState
        [demoRow "m3" "2024-03-03" 40]) "m1" = getCandidateByMessageId twoCandState "m1" ∧
    insertCandidatesDB twoCandState [demoRow "m1" "2099-01-01" 1] = twoCandState :=
  insertCandidates_idempotent twoCandState
    (Reachable.insert _ Reachable.init) "m1"
    (mkCandidate 1 0 (demoRow "m1" "2024-01-01" 85)) (by decide) (by decide)
    [] [demoRow "m3" "2024-03-03" 40] (demoRow "m1" "2099-01-01" 1) (by decide)

/-- Claim C10: `submitReview` does not check the target's `reviewed` flag: on
any reachable store, a decision for an already-reviewed candidate succeeds,
appends one more decision row, and leaves the candidate reviewed; consequently
a reachable state exists whose `confirmedCount + rejectedCount` (counted over
decision rows) exceeds `countTotal`. -/
theorem no_already_reviewed_guard :
    (∀ s, Reachable s → ∀ c ∈ s.candidates, c.reviewed = true →
      ∀ (v : Bool) (notes : Option String),
      submitReview s ⟨c.message_id, v, notes⟩ =
        .ok (submitPrefixState s ⟨c.message_id, v, notes⟩ c 3,
          countUnreviewed (submitPrefixState s ⟨c.message_id, v, notes⟩ c 3)) ∧
      (submitPrefixState s ⟨c.message_id, v, notes⟩ c 3).decisions.length =
        s.decisions.length + 1 ∧
      (∀ d ∈ (submitPrefixState s ⟨c.message_id, v, notes⟩ c 3).candidates,
        d.message_id = c.message_id → d.reviewed = true)) ∧
    (∃ s, Reachable s ∧
      countTotalCandidates s < countConfirmedFlights s + countRejected s) := by
  constructor
  · intro s hr c hc hrev v notes
    have hw := reachable_wf hr
    have hne : c.message_id ≠ "" := hw.revNonempty c hc hrev
    have hfound : getCandidateByMessageId s c.message_id = some c :=
      find?_msg_eq_some hw.candMsgsDistinct hc
    refine ⟨submitReview_ok_of_found hne hfound, ?_, ?_⟩
    · rw [submitPrefixState3_decisions]
      simp
    · rw [submitPrefixState3_candidates]
      intro d hd hdm
      rcases List.mem_map.1 hd with ⟨y, hy, rfl⟩
      rw [setReviewed_msg] at hdm
      have hyc : y = c := eq_of_mem_msg hw.candMsgsDistinct hc y hy hdm
      subst hyc
      unfold setReviewed
      rw [if_pos rfl]
  · refine ⟨twiceReviewedState, ?_, by decide⟩
    have h0 : Reachable oneCandState := Reachable.insert _ Reachable.init
    have h1 : Reachable oneRejectedState :=
      Reachable.review h0
        (show submitReview oneCandState ⟨"m1", false, none⟩ =
          .ok (oneRejectedState, 0) by decide)
    exact Reachable.review h1
      (show submitReview oneRejectedState ⟨"m1", true, none⟩ =
        .ok (twiceReviewedState, 0) by decide)

/-- Witness for C10: a second (positive) decision for the already-rejected
candidate `m1` succeeds and appends a second decision row. -/
theorem no_already_reviewed_guard_witness :
    submitReview oneRejectedState ⟨"m1", true, none⟩ =
      .ok (submitPrefixState oneRejectedState ⟨"m1", true, none⟩
          ⟨1, "m1", "uid-m1", "subj-m1", "from-m1", "2024-01-01", "pv", "<p>", "txt", 85,
            "[]", 0, true⟩ 3,
        countUnreviewed (submitPrefixState oneRejectedState ⟨"m1", true, none⟩
          ⟨1, "m1", "uid-m1", "subj-m1", "from-m1", "2024-01-01", "pv", "<p>", "txt", 85,
            "[]", 0, true⟩ 3)) ∧
    (submitPrefixState oneRejectedState ⟨"m1", true, none⟩
        ⟨1, "m1", "uid-m1", "subj-m1", "from-m1", "2024-01-01", "pv", "<p>", "txt", 85,
          "[]", 0, true⟩ 3).decisions.length = oneRejectedState.decisions.length + 1 ∧
    (∀ d ∈ (submitPrefixState oneRejectedState ⟨"m1", true, none⟩
        ⟨1, "m1", "uid-m1", "subj-m1", "from-m1", "2024-01-01", "pv", "<p>", "txt", 85,
          "[]", 0, true⟩ 3).candidates, d.message_id = "m1" → d.reviewed = true) :=
  no_already_reviewed_guard.1 oneRejectedState
    (Reachable.review (Reachable.insert _ Reachable.init)
      (show submitReview oneCandState ⟨"m1", false, none⟩ =
        .ok (oneRejectedState, 0) by decide))
    ⟨1, "m1", "uid-m1", "subj-m1", "from-m1", "2024-01-01", "pv", "<p>", "txt", 85,
      "[]", 0, true⟩ (by decide) (by decide) true none

/-- Claim C1 counterexample: on the reachable store where `m1` was rejected,
a positive decision for `m1` followed immediately by undo leaves
`countUnreviewed` at 1 (its pre-decision value was 0) and leaves in place the
ConfirmedEntry that the decision created (the undo handler never touches
`confirmed_flights`). -/
theorem submit_undo_roundtrip_counterexample :
    countUnreviewed oneRejectedState = 0 ∧
    oneRejectedState.confirmed = [] ∧
    submitReview oneRejectedState ⟨"m1", true, none⟩ =
      .ok (twiceReviewedState, countUnreviewed twiceReviewedState) ∧
    twiceReviewedState.confirmed.any (fun f => decide (f.message_id = "m1")) = true ∧
    undoLast twiceReviewedState = .ok (afterUndoState, "m1") ∧
    countUnreviewed afterUndoState = 1 ∧
    afterUndoState.confirmed = twiceReviewedState.confirmed := by
  refine ⟨?_, ?_, ?_, ?_, ?_, ?_, ?_⟩ <;> decide

/-- Claim C1 (amended): for a reachable store, submitting a decision for a
candidate and immediately undoing it deletes the inserted decision row and
sets `reviewed` back to `false`; for an unreviewed candidate this restores the
candidate table and `countUnreviewed` exactly.  But undo leaves
`confirmed_flights` untouched — a ConfirmedEntry created by the positive
decision survives — and for an already-reviewed candidate `countUnreviewed`
ends one above its pre-decision value. -/
theorem submit_undo_roundtrip {s : DBState} (hr : Reachable s) {c : Candidate}
    (hc : c ∈ s.candidates) (v : Bool) (notes : Option String) {s1 s2 : DBState}
    {n : Nat} {m : String}
    (hok : submitReview s ⟨c.message_id, v, notes⟩ = .ok (s1, n))
    (hu : undoLast s1 = .ok (s2, m)) :
    s2.decisions = s.decisions ∧
    s2.confirmed = s1.confirmed ∧
    (v = true → s1.confirmed.any (fun f => decide (f.message_id = c.message_id)) = true) ∧
    (c.reviewed = false → s2.candidates = s.candidates ∧
      countUnreviewed s2 = countUnreviewed s) ∧
    (c.reviewed = true → countUnreviewed s2 = countUnreviewed s + 1) := by
  have hw := reachable_wf hr
  obtain ⟨hne, -⟩ := submitReview_eq_ok hok
  have hfc : getCandidateByMessageId s c.message_id = some c :=
    find?_msg_eq_some hw.candMsgsDistinct hc
  rw [submitReview_ok_of_found hne hfc] at hok
  simp only [Except.ok.injEq, Prod.mk.injEq] at hok
  obtain ⟨hs1, -⟩ := hok
  subst hs1
  have hdec1 : (submitPrefixState s ⟨c.message_id, v, notes⟩ c 3).decisions =
      s.decisions ++ [⟨s.nextDecisionId, c.id, c.message_id, v, s.clock, notes⟩] :=
    submitPrefixState3_decisions s ⟨c.message_id, v, notes⟩ c
  have hlast : getLastDecision (submitPrefixState s ⟨c.message_id, v, notes⟩ c 3) =
      some ⟨s.nextDecisionId, c.id, c.message_id, v, s.clock, notes⟩ :=
    getLastDecision_concat hdec1 (fun x hx => hw.decTimesLt x hx)
  obtain ⟨d, hld, hs2, hm⟩ := undoLast_eq_ok hu
  have hd : d = ⟨s.nextDecisionId, c.id, c.message_id, v, s.clock, notes⟩ := by
    rw [hlast] at hld
    exact (Option.some_inj.1 hld).symm
  subst hd
  subst hs2
  have hdel : (undoState (submitPrefixState s ⟨c.message_id, v, notes⟩ c 3)
      ⟨s.nextDecisionId, c.id, c.message_id, v, s.clock, notes⟩).decisions =
      s.decisions := by
    show (submitPrefixState s ⟨c.message_id, v, notes⟩ c 3).decisions.filter _ = s.decisions
    rw [hdec1]
    exact filter_ne_id_concat (fun x hx => Nat.ne_of_lt (hw.decIdsLt x hx))
  have hcand : (undoState (submitPrefixState s ⟨c.message_id, v, notes⟩ c 3)
      ⟨s.nextDecisionId, c.id, c.message_id, v, s.clock, notes⟩).candidates =
      s.candidates.map (setReviewed false c.id) := by
    show ((submitPrefixState s ⟨c.message_id, v, notes⟩ c 3).candidates.map
      (setReviewed false c.id)) = _
    rw [submitPrefixState3_candidates]
    exact map_setReviewed_map true false c.id s.candidates
  refine ⟨hdel, rfl, ?_, ?_, ?_⟩
  · intro hv
    rw [submitPrefixState3_confirmed, if_pos hv]
    exact insertConfirmedFlight_any _ _ _ _
  · intro hrev
    have hmap : s.candidates.map (setReviewed false c.id) = s.candidates :=
      map_setReviewed_eq_self (fun x hx hxid => by
        rw [eq_of_mem_id hw.candIdsDistinct hc x hx hxid]
        exact hrev)
    refine ⟨by rw [hcand, hmap], ?_⟩
    unfold countUnreviewed
    rw [hcand, hmap]
  · intro hrev
    unfold countUnreviewed
    rw [hcand]
    exact count_unrev_map_setReviewed_false hw.candIdsDistinct hc hrev

/-- Witness for C1 (amended) on the one-candidate store: confirm `m1`, undo,
and observe the restored decision log and candidate table while the confirmed
entry survives. -/
theorem submit_undo_roundtrip_witness :
    (okStateU (undoLast oneConfirmedState)).decisions = oneCandState.decisions ∧
    (okStateU (undoLast oneConfirmedState)).confirmed = oneConfirmedState.confirmed ∧
    (true = true → oneConfirmedState.confirmed.any
      (fun f => decide (f.message_id = "m1")) = true) ∧
    (false = false → (okStateU (undoLast oneConfirmedState)).candidates =
      oneCandState.candidates ∧
      countUnreviewed (okStateU (undoLast oneConfirmedState)) =
        countUnreviewed oneCandState) ∧
    (false = true → countUnreviewed (okStateU (undoLast oneConfirmedState)) =
      countUnreviewed oneCandState + 1) :=
  submit_undo_roundtrip (Reachable.insert _ Reachable.init)
    (show (⟨1, "m1", "uid-m1", "subj-m1", "from-m1", "2024-01-01", "pv", "<p>", "txt", 85,
      "[]", 0, false⟩ : Candidate) ∈ oneCandState.candidates by decide)
    true none
    (show submitReview oneCandState ⟨"m1", true, none⟩ =
      .ok (oneConfirmedState, 0) by decide)
    (show undoLast oneConfirmedState =
      .ok (okStateU (undoLast oneConfirmedState), "m1") by decide)

/-- Claim C2 counterexample: the review handler runs its writes without a
transaction, so a storage failure after the decision insert leaves an
observable partial write — the decision row is persisted while the candidate
is still unreviewed, and the store differs from its pre-call state. -/
theorem submit_atomicity_counterexample :
    submitReviewAfterWrites oneCandState ⟨"m1", true, none⟩ 1 =
      some (insertReviewDecision oneCandState 1 "m1" true none) ∧
    insertReviewDecision oneCandState 1 "m1" true none ≠ oneCandState ∧
    (insertReviewDecision oneCandState 1 "m1" true none).decisions.length = 1 ∧
    countUnreviewed (insertReviewDecision oneCandState 1 "m1" true none) =
      countUnreviewed oneCandState := by
  refine ⟨?_, ?_, ?_, ?_⟩ <;> decide

/-- Claim C2 (amended): `submitReview` is not atomic.  A failure before any
write leaves the pre-call state, but a failure after the decision insert
leaves the inserted decision row persisted while the candidate table (and so
the `reviewed` flag) is untouched: the partial write is observable. -/
theorem submit_not_atomic (s : DBState) (req : ReviewRequest) (c : Candidate)
    (hne : req.email_id ≠ "")
    (hfound : getCandidateByMessageId s req.email_id = some c) :
    submitReviewAfterWrites s req 0 = some s ∧
    submitReviewAfterWrites s req 1 =
      some (insertReviewDecision s c.id req.email_id req.is_flight_confirmation
        req.notes) ∧
    (insertReviewDecision s c.id req.email_id req.is_flight_confirmation
      req.notes).candidates = s.candidates ∧
    (insertReviewDecision s c.id req.email_id req.is_flight_confirmation
      req.notes).decisions = s.decisions ++
        [⟨s.nextDecisionId, c.id, req.email_id, req.is_flight_confirmation, s.clock,
          req.notes⟩] := by
  refine ⟨?_, ?_, rfl, rfl⟩
  · unfold submitReviewAfterWrites
    rw [if_neg hne, hfound]
    rfl
  · unfold submitReviewAfterWrites
    rw [if_neg hne, hfound]
    rfl

/-- Witness for C2 (amended) at the one-candidate store. -/
theorem submit_not_atomic_witness :
    submitReviewAfterWrites oneCandState ⟨"m1", false, some "note"⟩ 0 =
      some oneCandState ∧
    submitReviewAfterWrites oneCandState ⟨"m1", false, some "note"⟩ 1 =
      some (insertReviewDecision oneCandState 1 "m1" false (some "note")) ∧
    (insertReviewDecision oneCandState 1 "m1" false (some "note")).candidates =
      oneCandState.candidates ∧
    (insertReviewDecision oneCandState 1 "m1" false (some "note")).decisions =
      oneCandState.decisions ++
        [⟨oneCandState.nextDecisionId, 1, "m1", false, oneCandState.clock,
          some "note"⟩] :=
  submit_not_atomic oneCandState ⟨"m1", false, some "note"⟩
    ⟨1, "m1", "uid-m1", "subj-m1", "from-m1", "2024-01-01", "pv", "<p>", "txt", 85,
      "[]", 0, false⟩
    (by decide) (by decide)

/-- Claim C3 counterexample: the `FlightReservation` schema rule matches with
`String.includes`, which is case-sensitive — lowercasing only the HTML body
changes the score from 50 to 0, so scoring is not case-insensitive in every
textual rule. -/
theorem score_case_counterexample :
    toLowerStr "flightreservation" = toLowerStr "FlightReservation" ∧
    calculateConfidenceScore ⟨"FlightReservation", "", "", some "", "m", "d"⟩ ≠
      calculateConfidenceScore ⟨"flightreservation", "", "", some "", "m", "d"⟩ := by
  refine ⟨?_, ?_⟩ <;> decide

/-- Claim C3 (amended): the scorer is case-insensitive in the sender-domain
rule and the two subject-keyword rules — any case variation of `subject` and
`from_email` leaves score and reasons unchanged — but the schema-markup rule
and the three flight-marker patterns are case-sensitive (see the
counterexample). -/
theorem score_subject_sender_case_blind (e : EmailData) (s2 f2 : String)
    (hs : toLowerStr s2 = toLowerStr e.subject)
    (hf : toLowerStr f2 = toLowerStr e.from_email) :
    calculateConfidenceScore
        ⟨e.html, f2, s2, e.plain_text, e.message_id, e.date⟩ =
      calculateConfidenceScore e := by
  have h1 : hasConfirmationKeywords s2 = hasConfirmationKeywords e.subject := by
    unfold hasConfirmationKeywords
    rw [hs]
  have h2 : hasFlightKeywords s2 = hasFlightKeywords e.subject := by
    unfold hasFlightKeywords
    rw [hs]
  have h3 : isKnownSender f2 = isKnownSender e.from_email := by
    unfold isKnownSender
    rw [hf]
  simp only [calculateConfidenceScore, h1, h2, h3]

/-- Witness for C3 (amended): shouting the subject and sender changes
nothing. -/
theorem score_case_blind_witness :
    toLowerStr "FLIGHT Confirmation" = toLowerStr "flight confirmation" ∧
    toLowerStr "x@UNITED.com" = toLowerStr "x@united.com" ∧
    calculateConfidenceScore
        ⟨"<p>", "x@UNITED.com", "FLIGHT Confirmation", some "body", "m", "d"⟩ =
      calculateConfidenceScore
        ⟨"<p>", "x@united.com", "flight confirmation", some "body", "m", "d"⟩ :=
  ⟨by decide, by decide,
    score_subject_sender_case_blind
      ⟨"<p>", "x@united.com", "flight confirmation", some "body", "m", "d"⟩
      "FLIGHT Confirmation" "x@UNITED.com" (by decide) (by decide)⟩

/-- Claim C8 counterexample: with two decisions in the log, undo called twice
in a row (no decision submitted in between) SUCCEEDS the second time — the
handler simply takes the next most recent decision, so undo is multi-level,
not single-level. -/
theorem double_undo_counterexample :
    twoDecisionState.decisions.length = 2 ∧
    undoLast twoDecisionState = .ok (afterFirstUndoState, "m2") ∧
    undoLast afterFirstUndoState ≠ .error ApiError.notFound ∧
    undoLast afterFirstUndoState =
      .ok (okStateU (undoLast afterFirstUndoState), "m1") := by
  refine ⟨?_, ?_, ?_, ?_⟩ <;> decide

/-- Claim C8 (amended): with an empty decision log, `undoLast` fails with
NotFound (the handler returns before performing any write, so no state
changes); undo-twice-in-a-row fails the second time precisely when the log
held a single decision — the first undo then empties it.  With two or more
decisions the second undo succeeds (see the counterexample). -/
theorem undo_empty_notFound (s : DBState) :
    (s.decisions = [] → undoLast s = .error .notFound) ∧
    (∀ s' m, s.decisions.length = 1 → undoLast s = .ok (s', m) →
      undoLast s' = .error .notFound) := by
  constructor
  · intro h
    unfold undoLast getLastDecision
    rw [h]
  · intro s' m hlen hok
    obtain ⟨d, hld, hs2, -⟩ := undoLast_eq_ok hok
    subst hs2
    obtain ⟨d0, hd0⟩ := List.length_eq_one.1 hlen
    have hdd : d = d0 := by
      unfold getLastDecision at hld
      rw [hd0] at hld
      simpa using hld.symm
    have hdec : (undoState s d).decisions = [] := by
      show s.decisions.filter _ = []
      rw [hd0, hdd]
      simp
    unfold undoLast getLastDecision
    rw [hdec]

/-- Witness for C8 (amended): one decision, undo succeeds, second undo fails
with NotFound. -/
theorem undo_empty_notFound_witness :
    oneRejectedState.decisions.length = 1 ∧
    undoLast oneRejectedState = .ok (okStateU (undoLast oneRejectedState), "m1") ∧
    undoLast (okStateU (undoLast oneRejectedState)) = .error .notFound :=
  ⟨by decide, by decide,
    (undo_empty_notFound oneRejectedState).2 (okStateU (undoLast oneRejectedState)) "m1"
      (by decide) (by decide)⟩

/-! ## `LIKE` versus literal substring -/

theorem tryDrops_congr {f g : List Char → Bool} (h : ∀ t, f t = g t) :
    ∀ s, tryDrops f s = tryDrops g s
  | [] => by simp only [tryDrops, h]
  | c :: cs => by simp only [tryDrops, h, tryDrops_congr h cs]

theorem tryDrops_nil_pat (s : List Char) : tryDrops (likeMatch []) s = true := by
  induction s with
  | nil => rfl
  | cons c cs ih =>
    show (likeMatch [] (c :: cs) || tryDrops (likeMatch []) cs) = true
    rw [ih]
    simp

theorem likeMatch_cons (p : Char) (ps s : List Char) :
    likeMatch (p :: ps) s =
      if p = '%' then tryDrops (likeMatch ps) s
      else
        match s with
        | [] => false
        | c :: cs => (decide (p = '_') || likeCharEq p c) && likeMatch ps cs := rfl

theorem likeMatch_concat_pct {q : List Char} (hq : ∀ ch ∈ q, ch ≠ '%' ∧ ch ≠ '_') :
    ∀ t, likeMatch (q ++ ['%']) t = lowerStartsWith q t := by
  induction q with
  | nil =>
    intro t
    show likeMatch ('%' :: []) t = true
    rw [likeMatch_cons, if_pos rfl]
    exact tryDrops_nil_pat t
  | cons p ps ih =>
    intro t
    have hp := hq p (List.mem_cons_self p ps)
    have hps : ∀ ch ∈ ps, ch ≠ '%' ∧ ch ≠ '_' :=
      fun ch hch => hq ch (List.mem_cons_of_mem p hch)
    show likeMatch (p :: (ps ++ ['%'])) t = lowerStartsWith (p :: ps) t
    rw [likeMatch_cons, if_neg hp.1]
    cases t with
    | nil => rfl
    | cons c cs =>
      show ((decide (p = '_') || likeCharEq p c) && likeMatch (ps ++ ['%']) cs) =
        (likeCharEq p c && lowerStartsWith ps cs)
      rw [ih hps cs]
      simp [hp.2]

theorem likeMatch_likePat_eq_containsCI {q : String} (hq : wildcardFree q = true)
    (s : List Char) : likeMatch (likePat q) s = containsCI q.toList s := by
  have hq' : ∀ ch ∈ q.toList, ch ≠ '%' ∧ ch ≠ '_' := by
    unfold wildcardFree at hq
    rw [List.all_eq_true] at hq
    intro ch hch
    simpa using hq ch hch
  show likeMatch ('%' :: (q.toList ++ ['%'])) s = tryDrops (lowerStartsWith q.toList) s
  rw [likeMatch_cons, if_pos rfl]
  exact tryDrops_congr (likeMatch_concat_pct hq') s

/-- Claim C9 counterexample: the raw query is interpolated into the `LIKE`
pattern, so `_` acts as a single-character wildcard rather than a literal:
searching the one-candidate store for `"_"` returns the candidate although
none of its searchable fields contains `"_"` as a literal substring. -/
theorem search_wildcard_counterexample :
    (searchCandidates oneCandState "_" none).length = 1 ∧
    oneCandState.candidates.filter (specSearchMatches "_" none) = [] := by
  refine ⟨?_, ?_⟩ <;> decide

/-- Claim C9 (amended): `searchCandidates` returns exactly the candidates
matching the `LIKE` pattern `'%' + query + '%'` (with `%`/`_` from the query
acting as wildcards, matching case-insensitively on ASCII), filtered by exact
reviewed state when requested, capped at 100 rows and ordered by `msg_date`
descending; for queries free of `%` and `_` the `LIKE` match coincides with
the claimed case-insensitive literal-substring match. -/
theorem searchCandidates_spec (s : DBState) (q : String) (filt : Option Bool) :
    (∀ c ∈ searchCandidates s q filt, searchMatches q filt c = true) ∧
    (searchCandidates s q filt).length ≤ 100 ∧
    (searchCandidates s q filt).Pairwise dateLE ∧
    ((s.candidates.filter (searchMatches q filt)).length ≤ 100 →
      (searchCandidates s q filt).Perm (s.candidates.filter (searchMatches q filt))) ∧
    (wildcardFree q = true → ∀ c, searchMatches q filt c = specSearchMatches q filt c) := by
  refine ⟨?_, ?_, ?_, ?_, ?_⟩
  · intro c hc
    unfold searchCandidates at hc
    have h1 := List.mem_of_mem_take hc
    have h2 := (List.perm_insertionSort dateLE _).mem_iff.1 h1
    exact (List.mem_filter.1 h2).2
  · unfold searchCandidates
    exact List.length_take_le _ _
  · unfold searchCandidates
    exact List.Pairwise.sublist (List.take_sublist _ _)
      (List.sorted_insertionSort dateLE _)
  · intro hlen
    unfold searchCandidates
    rw [List.take_of_length_le]
    · exact List.perm_insertionSort dateLE _
    · rw [(List.perm_insertionSort dateLE _).length_eq]
      exact hlen
  · intro hq c
    unfold searchMatches specSearchMatches
    rw [likeMatch_likePat_eq_containsCI hq, likeMatch_likePat_eq_containsCI hq,
      likeMatch_likePat_eq_containsCI hq]

/-- Witness for C9 (amended) at the one-candidate store with the
wildcard-free query `"M1"`. -/
theorem searchCandidates_spec_witness :
    (∀ c ∈ searchCandidates oneCandState "M1" none,
      searchMatches "M1" none c = true) ∧
    (searchCandidates oneCandState "M1" none).length ≤ 100 ∧
    (searchCandidates oneCandState "M1" none).Pairwise dateLE ∧
    (searchCandidates oneCandState "M1" none).Perm
      (oneCandState.candidates.filter (searchMatches "M1" none)) ∧
    (∀ c, searchMatches "M1" none c = specSearchMatches "M1" none c) :=
  ⟨(searchCandidates_spec oneCandState "M1" none).1,
    (searchCandidates_spec oneCandState "M1" none).2.1,
    (searchCandidates_spec oneCandState "M1" none).2.2.1,
    (searchCandidates_spec oneCandState "M1" none).2.2.2.1 (by decide),
    (searchCandidates_spec oneCandState "M1" none).2.2.2.2 (by decide)⟩

/-- Witness for C7 at a concrete two-candidate store. -/
theorem getUnreviewedCandidates_spec_witness :
    (∀ c ∈ getUnreviewedCandidates twoCandState 10, c.reviewed = false) ∧
    (getUnreviewedCandidates twoCandState 10).length ≤ 10 ∧
    (getUnreviewedCandidates twoCandState 10).Pairwise candLE ∧
    (getUnreviewedCandidates twoCandState 10).Perm
      (twoCandState.candidates.filter (fun c => !c.reviewed)) :=
  ⟨(getUnreviewedCandidates_spec twoCandState 10).1,
    (getUnreviewedCandidates_spec twoCandState 10).2.1,
    (getUnreviewedCandidates_spec twoCandState 10).2.2.1,
    (getUnreviewedCandidates_spec twoCandState 10).2.2.2 (by decide)⟩

end GmailTripit
